import Mathlib

/-!
# Verification of the `EarlyAllocator` bump allocator

Shallow embedding of `src/arceos/modules/bump_allocator/src/lib.rs`: a
dual-region early-boot allocator over a span `[start, end)`.  Byte
allocations grow `byte_next` upward from `start`; page allocations grow
`page_next` downward from `end`.

Modelling conventions:
* `usize` values are natural numbers; `USIZE = 2^64` is the machine modulus.
* Arithmetic that overflows or underflows a `usize` panics in Rust (debug
  assertions), and `todo!()` panics unconditionally; a panic aborts the call
  and produces no result state.  Every operation therefore returns an
  `Option`: `none` models a panic, `some` a normal return.
* Rust's `Layout` type guarantees its alignment is a nonzero power of two;
  the operation itself is embedded over arbitrary naturals and theorems (or
  the transition relation) carry the power-of-two side condition exactly
  where Rust's type system imposes it.
* `AllocResult<T> = Result<T, AllocError>` becomes `Except AllocError`.
  The source only ever produces `AllocError::NoMemory`.
-/

namespace BumpAllocator

/-- The modulus of 64-bit `usize` arithmetic. -/
def USIZE : ℕ := 2 ^ 64

/-- Bitwise NOT on 64 bits, `!x` on `usize` (defined for `x < USIZE`). -/
def not64 (x : ℕ) : ℕ := (USIZE - 1) - x

/-- Embeds `fn align_up(addr, align) -> usize`, whose body is
`(addr + align - 1) & !(align - 1)`.
`none` models the debug-mode overflow panic of `addr + align` and the
underflow panic of `align - 1` (or `addr + 0 - 1`) when `align == 0`. -/
def align_up (addr align : ℕ) : Option ℕ :=
  if USIZE ≤ addr + align then none
  else if align = 0 then none
  else some ((addr + align - 1) &&& not64 (align - 1))

/-- Embeds `fn align_down(addr, align) -> usize`, whose body is
`addr & !(align - 1)`.
`none` models the underflow panic of `align - 1` when `align == 0`. -/
def align_down (addr align : ℕ) : Option ℕ :=
  if align = 0 then none
  else some (addr &&& not64 (align - 1))

/-- The single error variant the source produces (`AllocError::NoMemory`). -/
inductive AllocError where
  | NoMemory
deriving DecidableEq, Repr

/-- Embeds `AllocResult<T> = Result<T, AllocError>`. -/
abbrev AllocResult (α : Type) := Except AllocError α

/-- The fields of `EarlyAllocator<PAGE_SIZE>` (the const generic `PAGE_SIZE`
is passed explicitly to the operations that use it). -/
structure EarlyAllocator where
  start : ℕ
  end_ : ℕ
  byte_next : ℕ
  byte_count : ℕ
  page_next : ℕ
  page_count : ℕ
deriving DecidableEq, Repr

namespace EarlyAllocator

/-- Embeds `EarlyAllocator::new()`: every field zero. -/
def new : EarlyAllocator := ⟨0, 0, 0, 0, 0, 0⟩

/-- Embeds `BaseAllocator::init(&mut self, start, size)`.  Sets `start`,
`end = start + size`, `byte_count = 0`, `byte_next = start`,
`page_next = end`.  Note the source does **not** reset `page_count`.
`none` models the overflow panic of `start + size`. -/
def init (s : EarlyAllocator) (start size : ℕ) : Option EarlyAllocator :=
  if USIZE ≤ start + size then none
  else some { s with
    start := start
    end_ := start + size
    byte_count := 0
    byte_next := start
    page_next := start + size }

/-- Embeds `BaseAllocator::add_memory(&mut self, start, size) -> AllocResult`.
The body is `todo!()`, which panics unconditionally in every build. -/
def add_memory (_s : EarlyAllocator) (_start _size : ℕ) :
    Option (AllocResult Unit × EarlyAllocator) :=
  none

/-- Embeds `ByteAllocator::alloc(&mut self, layout) -> AllocResult<NonNull<u8>>`
with `layout = (size, align)`.

```
let start = align_up(self.byte_next, layout.align());
let end = start + layout.size();
if end > self.page_next { Err(AllocError::NoMemory) }
else {
    self.byte_count += 1;
    self.byte_next = end;
    NonNull::new(start as *mut u8).ok_or(AllocError::NoMemory)
}
```

`none` models a panic of the internal arithmetic (`align_up`, the
`start + size` addition, or the `byte_count += 1` increment).  When the
aligned candidate start is the null address, the source has already
mutated `byte_count` and `byte_next` before `NonNull::new` fails. -/
def alloc (s : EarlyAllocator) (size align : ℕ) :
    Option (AllocResult ℕ × EarlyAllocator) :=
  (align_up s.byte_next align).bind fun start =>
    if USIZE ≤ start + size then none
    else
      if start + size > s.page_next then
        some (.error .NoMemory, s)
      else if USIZE ≤ s.byte_count + 1 then none
      else if start = 0 then
        -- `byte_count` and `byte_next` are already updated when `NonNull::new` fails
        some (.error .NoMemory,
          { s with byte_count := s.byte_count + 1, byte_next := start + size })
      else
        some (.ok start,
          { s with byte_count := s.byte_count + 1, byte_next := start + size })

/-- Embeds `ByteAllocator::dealloc(&mut self, pos, layout)`; `pos` and `layout`
are unused by the source.  `byte_count -= 1`, and on reaching zero
`byte_next` is reset to `start`.  `none` models the underflow panic of
the decrement when `byte_count == 0`. -/
def dealloc (s : EarlyAllocator) : Option EarlyAllocator :=
  if s.byte_count = 0 then none
  else
    some { s with
      byte_count := s.byte_count - 1
      byte_next := if s.byte_count - 1 = 0 then s.start else s.byte_next }

/-- Embeds `PageAllocator::alloc_pages(&mut self, num_pages, align_pow2)`, with
the const generic `PAGE_SIZE` passed as `PS`.

```
let start = align_down(self.page_next - (Self::PAGE_SIZE * num_pages), align_pow2);
if start < self.byte_next { Err(AllocError::NoMemory) }
else { self.page_count += 1; self.page_next = start; Ok(start) }
```

`none` models a panic: overflow of `PAGE_SIZE * num_pages`, underflow of
the subtraction, `align_pow2 == 0` inside `align_down`, or overflow of
the `page_count += 1` increment. -/
def alloc_pages (PS : ℕ) (s : EarlyAllocator) (num_pages align_pow2 : ℕ) :
    Option (AllocResult ℕ × EarlyAllocator) :=
  if USIZE ≤ PS * num_pages then none
  else if s.page_next < PS * num_pages then none
  else
    (align_down (s.page_next - PS * num_pages) align_pow2).bind fun start =>
      if start < s.byte_next then
        some (.error .NoMemory, s)
      else if USIZE ≤ s.page_count + 1 then none
      else
        some (.ok start, { s with page_count := s.page_count + 1, page_next := start })

/-- Embeds `PageAllocator::dealloc_pages(&mut self, pos, num_pages)`; `pos` and
`num_pages` are unused by the source.  `page_count -= 1`, and on reaching
zero `page_next` is reset to `end`.  `none` models the underflow panic of
the decrement when `page_count == 0`. -/
def dealloc_pages (s : EarlyAllocator) : Option EarlyAllocator :=
  if s.page_count = 0 then none
  else
    some { s with
      page_count := s.page_count - 1
      page_next := if s.page_count - 1 = 0 then s.end_ else s.page_next }

end EarlyAllocator

/-- One call to any of the four allocate/deallocate operations.  For
`alloc`, Rust's `Layout` type invariant guarantees a power-of-two
alignment, so the operation carries the exponent `k` (align `= 2^k`);
`alloc_pages` receives `align_pow2` as a plain `usize` with no such
guarantee, so it stays arbitrary. -/
inductive Op where
  | allocOp (size k : ℕ)
  | deallocOp
  | allocPagesOp (num_pages align_pow2 : ℕ)
  | deallocPagesOp
deriving DecidableEq, Repr

/-- The state transition of one call (the returned value is discarded);
`none` when the call panics. -/
def step (PS : ℕ) (op : Op) (s : EarlyAllocator) : Option EarlyAllocator :=
  match op with
  | .allocOp size k => (s.alloc size (2 ^ k)).map Prod.snd
  | .deallocOp => s.dealloc
  | .allocPagesOp n a => (EarlyAllocator.alloc_pages PS s n a).map Prod.snd
  | .deallocPagesOp => s.dealloc_pages

/-- States reachable from a freshly initialized allocator
(`EarlyAllocator::new()` followed by one `init`) by any sequence of
non-panicking calls. -/
inductive Reachable (PS : ℕ) : EarlyAllocator → Prop where
  | init (start size : ℕ) (s : EarlyAllocator)
      (h : EarlyAllocator.new.init start size = some s) : Reachable PS s
  | step (op : Op) (s s' : EarlyAllocator)
      (hs : Reachable PS s) (h : step PS op s = some s') : Reachable PS s'

/-- The spec's mathematical "round `x` up to a multiple of `a`"
(smallest multiple of `a` that is `≥ x`). -/
def roundUp (x a : ℕ) : ℕ := a * ((x + a - 1) / a)

/-- The spec's mathematical "round `x` down to a multiple of `a`"
(largest multiple of `a` that is `≤ x`). -/
def roundDown (x a : ℕ) : ℕ := a * (x / a)

/-- Relation `AllocsTo s n t`: state `s'` results from `s` by `n` *successful*
`alloc` calls (each returning `Ok`), with arbitrary sizes and
power-of-two alignments (Rust's `Layout` type invariant). -/
inductive AllocsTo : EarlyAllocator → ℕ → EarlyAllocator → Prop where
  | refl (s : EarlyAllocator) : AllocsTo s 0 s
  | step {s : EarlyAllocator} {n : ℕ} {s' : EarlyAllocator} (size k addr : ℕ)
      {s'' : EarlyAllocator} (h : AllocsTo s n s')
      (hs : s'.alloc size (2 ^ k) = some (.ok addr, s'')) :
      AllocsTo s (n + 1) s''

/-- Iterates `n` consecutive `dealloc` calls (panicking if any call panics). -/
def deallocN : ℕ → EarlyAllocator → Option EarlyAllocator
  | 0, s => some s
  | n + 1, s => s.dealloc.bind (deallocN n)

/-! ## Characterization of the bit-mask alignment arithmetic -/

lemma not64_two_pow_sub_one {k : ℕ} (hk : k ≤ 64) :
    not64 (2 ^ k - 1) = 2 ^ k * (2 ^ (64 - k) - 1) := by
  have h1 : (2 : ℕ) ^ k * 2 ^ (64 - k) = 2 ^ 64 := by
    rw [← pow_add]; congr 1; omega
  have h2 : (1 : ℕ) ≤ 2 ^ k := Nat.one_le_two_pow
  have hb : (1 : ℕ) ≤ 2 ^ (64 - k) := Nat.one_le_two_pow
  have h4 : (2 : ℕ) ^ k * (2 ^ (64 - k) - 1) + 2 ^ k = 2 ^ 64 := by
    calc 2 ^ k * (2 ^ (64 - k) - 1) + 2 ^ k
        = 2 ^ k * (2 ^ (64 - k) - 1 + 1) := by ring
      _ = 2 ^ 64 := by rw [Nat.sub_add_cancel hb, h1]
  unfold not64 USIZE
  omega

lemma and_mask_eq {k : ℕ} (hk : k ≤ 64) {x : ℕ} (hx : x < USIZE) :
    x &&& (2 ^ k * (2 ^ (64 - k) - 1)) = 2 ^ k * (x / 2 ^ k) := by
  apply Nat.eq_of_testBit_eq
  intro j
  rw [Nat.testBit_and, Nat.testBit_mul_pow_two, Nat.testBit_mul_pow_two]
  by_cases hj : k ≤ j
  · have hdiv : x / 2 ^ k = x >>> k := (Nat.shiftRight_eq_div_pow x k).symm
    have hkj : k + (j - k) = j := by omega
    rw [hdiv, Nat.testBit_shiftRight, hkj]
    by_cases hj64 : j < 64
    · have hlt : j - k < 64 - k := by omega
      simp [hj, Nat.testBit_two_pow_sub_one, hlt]
    · have hxj : x.testBit j = false := by
        apply Nat.testBit_lt_two_pow
        calc x < 2 ^ 64 := hx
          _ ≤ 2 ^ j := Nat.pow_le_pow_right (by norm_num) (by omega)
      simp [hxj]
  · simp [hj]

/-- On power-of-two alignments below the word size, `align_down` is the
spec's mathematical rounding down. -/
lemma align_down_eq {k x : ℕ} (hk : k ≤ 64) (hx : x < USIZE) :
    align_down x (2 ^ k) = some (roundDown x (2 ^ k)) := by
  unfold align_down roundDown
  rw [if_neg (by positivity), not64_two_pow_sub_one hk, and_mask_eq hk hx]

/-- On power-of-two alignments, when the internal addition does not
overflow, `align_up` is the spec's mathematical rounding up. -/
lemma align_up_eq {k addr : ℕ} (h : addr + 2 ^ k < USIZE) :
    align_up addr (2 ^ k) = some (roundUp addr (2 ^ k)) := by
  have hU : (2 : ℕ) ^ k < 2 ^ 64 := by
    have h' : addr + 2 ^ k < 2 ^ 64 := h
    omega
  have hk : k ≤ 64 := le_of_lt ((Nat.pow_lt_pow_iff_right (by norm_num)).mp hU)
  have hx : addr + 2 ^ k - 1 < USIZE := lt_of_le_of_lt (Nat.sub_le _ _) h
  unfold align_up roundUp
  rw [if_neg (not_le.mpr h),
    if_neg (show ¬ (2 : ℕ) ^ k = 0 by positivity),
    not64_two_pow_sub_one hk, and_mask_eq hk hx]

/-- The result of `align_down` never exceeds its input, for any alignment
(the source applies it to arbitrary `align_pow2` arguments). -/
lemma align_down_le {x a v : ℕ} (h : align_down x a = some v) : v ≤ x := by
  unfold align_down at h
  split at h
  · exact absurd h (by simp)
  · exact (Option.some_inj.mp h) ▸ Nat.and_le_left

lemma roundDown_le (x a : ℕ) : roundDown x a ≤ x :=
  Nat.mul_div_le x a

lemma le_roundUp {x a : ℕ} (ha : 0 < a) : x ≤ roundUp x a := by
  have h := le_smul_ceilDiv (a := a) (b := x) ha
  rw [Nat.ceilDiv_eq_add_pred_div, smul_eq_mul] at h
  exact h

lemma roundUp_le (x a : ℕ) : roundUp x a ≤ x + a - 1 :=
  Nat.mul_div_le (x + a - 1) a

lemma roundUp_mod (x a : ℕ) : roundUp x a % a = 0 := by
  unfold roundUp
  exact Nat.mul_mod_right a _

/-! ## Inversion lemmas for the operations -/

/-- If `align_up` on a power-of-two alignment returns a value, the internal
addition did not overflow and the value is the mathematical rounding up. -/
lemma align_up_some_ge {k addr cand : ℕ} (h : align_up addr (2 ^ k) = some cand) :
    addr + 2 ^ k < USIZE ∧ cand = roundUp addr (2 ^ k) := by
  by_cases hlt : addr + 2 ^ k < USIZE
  · have h2 := align_up_eq hlt
    exact ⟨hlt, (Option.some_inj.mp (h2.symm.trans h)).symm⟩
  · exfalso
    unfold align_up at h
    rw [if_pos (not_lt.mp hlt)] at h
    exact absurd h (by simp)

/-- Complete case analysis of a non-panicking `alloc` call. -/
lemma alloc_eq_cases {s : EarlyAllocator} {size align : ℕ} {r : AllocResult ℕ}
    {s' : EarlyAllocator} (h : s.alloc size align = some (r, s')) :
    ∃ cand, align_up s.byte_next align = some cand ∧ cand + size < USIZE ∧
      ((s.page_next < cand + size ∧ r = .error .NoMemory ∧ s' = s) ∨
       (cand + size ≤ s.page_next ∧ s.byte_count + 1 < USIZE ∧
         s' = { s with byte_count := s.byte_count + 1, byte_next := cand + size } ∧
         ((cand = 0 ∧ r = .error .NoMemory) ∨ (cand ≠ 0 ∧ r = .ok cand)))) := by
  unfold EarlyAllocator.alloc at h
  rw [Option.bind_eq_some] at h
  obtain ⟨cand, hau, h⟩ := h
  · refine ⟨cand, hau, ?_⟩
    split_ifs at h with h1 h2 h3 h4
    -- `split_ifs` discharges the branches where `h : none = some _`
    · simp only [Option.some.injEq, Prod.mk.injEq] at h
      exact ⟨not_le.mp h1, Or.inl ⟨h2, h.1.symm, h.2.symm⟩⟩
    · simp only [Option.some.injEq, Prod.mk.injEq] at h
      exact ⟨not_le.mp h1,
        Or.inr ⟨not_lt.mp h2, not_le.mp h3, h.2.symm, Or.inl ⟨h4, h.1.symm⟩⟩⟩
    · simp only [Option.some.injEq, Prod.mk.injEq] at h
      exact ⟨not_le.mp h1,
        Or.inr ⟨not_lt.mp h2, not_le.mp h3, h.2.symm, Or.inr ⟨h4, h.1.symm⟩⟩⟩

/-- Complete case analysis of a non-panicking `alloc_pages` call. -/
lemma alloc_pages_eq_cases {PS : ℕ} {s : EarlyAllocator} {n a : ℕ}
    {r : AllocResult ℕ} {s' : EarlyAllocator}
    (h : EarlyAllocator.alloc_pages PS s n a = some (r, s')) :
    ∃ cand, PS * n < USIZE ∧ PS * n ≤ s.page_next ∧
      align_down (s.page_next - PS * n) a = some cand ∧
      ((cand < s.byte_next ∧ r = .error .NoMemory ∧ s' = s) ∨
       (s.byte_next ≤ cand ∧ s.page_count + 1 < USIZE ∧ r = .ok cand ∧
         s' = { s with page_count := s.page_count + 1, page_next := cand })) := by
  unfold EarlyAllocator.alloc_pages at h
  by_cases h1 : USIZE ≤ PS * n
  · rw [if_pos h1] at h; exact absurd h (by simp)
  rw [if_neg h1] at h
  by_cases h2 : s.page_next < PS * n
  · rw [if_pos h2] at h; exact absurd h (by simp)
  rw [if_neg h2, Option.bind_eq_some] at h
  obtain ⟨cand, had, h⟩ := h
  split_ifs at h with h3 h4
  -- `split_ifs` discharges the branch where `h : none = some _`
  · simp only [Option.some.injEq, Prod.mk.injEq] at h
    exact ⟨cand, not_le.mp h1, not_lt.mp h2, had,
      Or.inl ⟨h3, h.1.symm, h.2.symm⟩⟩
  · simp only [Option.some.injEq, Prod.mk.injEq] at h
    exact ⟨cand, not_le.mp h1, not_lt.mp h2, had,
      Or.inr ⟨not_lt.mp h3, not_le.mp h4, h.1.symm, h.2.symm⟩⟩

/-- Case analysis of a non-panicking `dealloc` call. -/
lemma dealloc_eq_some {s s' : EarlyAllocator} (h : s.dealloc = some s') :
    s.byte_count ≠ 0 ∧
      s' = { s with
        byte_count := s.byte_count - 1,
        byte_next := if s.byte_count - 1 = 0 then s.start else s.byte_next } := by
  unfold EarlyAllocator.dealloc at h
  split_ifs at h with h1 h2
  · exact ⟨h1, by rw [if_pos h2]; exact (Option.some_inj.mp h).symm⟩
  · exact ⟨h1, by rw [if_neg h2]; exact (Option.some_inj.mp h).symm⟩

/-- Case analysis of a non-panicking `dealloc_pages` call. -/
lemma dealloc_pages_eq_some {s s' : EarlyAllocator} (h : s.dealloc_pages = some s') :
    s.page_count ≠ 0 ∧
      s' = { s with
        page_count := s.page_count - 1,
        page_next := if s.page_count - 1 = 0 then s.end_ else s.page_next } := by
  unfold EarlyAllocator.dealloc_pages at h
  split_ifs at h with h1 h2
  · exact ⟨h1, by rw [if_pos h2]; exact (Option.some_inj.mp h).symm⟩
  · exact ⟨h1, by rw [if_neg h2]; exact (Option.some_inj.mp h).symm⟩

/-- Case analysis of a non-panicking `init` call. -/
lemma init_eq_some {s s' : EarlyAllocator} {start size : ℕ}
    (h : s.init start size = some s') :
    start + size < USIZE ∧
      s' = { s with
        start := start,
        end_ := start + size,
        byte_count := 0,
        byte_next := start,
        page_next := start + size } := by
  unfold EarlyAllocator.init at h
  split_ifs at h with h1
  exact ⟨not_le.mp h1, (Option.some_inj.mp h).symm⟩

/-! ## Claim C1: the cursor invariant on reachable states -/

/-- Claim **C1**: For every state reachable from a freshly initialized allocator by
any sequence of `alloc`, `dealloc`, `alloc_pages`, and `dealloc_pages` calls
(with any arguments), `start ≤ byte_next ≤ page_next ≤ end` holds. -/
theorem claim_C1_invariant {PS : ℕ} {s : EarlyAllocator} (h : Reachable PS s) :
    s.start ≤ s.byte_next ∧ s.byte_next ≤ s.page_next ∧ s.page_next ≤ s.end_ := by
  induction h with
  | init start size s hinit =>
    obtain ⟨-, rfl⟩ := init_eq_some hinit
    simp
  | step op s s' hr hstep ih =>
    obtain ⟨h1, h2, h3⟩ := ih
    cases op with
    | allocOp size k =>
      simp only [step, Option.map_eq_some'] at hstep
      obtain ⟨⟨r, s''⟩, hall, hsnd⟩ := hstep
      have hss : s'' = s' := hsnd
      subst hss
      obtain ⟨cand, hau, hov, hcase⟩ := alloc_eq_cases hall
      obtain ⟨hovk, hcand⟩ := align_up_some_ge hau
      have hge : s.byte_next ≤ cand := hcand ▸ le_roundUp (Nat.two_pow_pos k)
      rcases hcase with ⟨hgt, hre, rfl⟩ | ⟨hle, hcnt, rfl, hres⟩
      · exact ⟨h1, h2, h3⟩
      · exact ⟨le_trans h1 (le_trans hge (Nat.le_add_right _ _)), hle, h3⟩
    | deallocOp =>
      simp only [step] at hstep
      obtain ⟨hc, rfl⟩ := dealloc_eq_some hstep
      refine ⟨?_, ?_, h3⟩
      · by_cases hz : s.byte_count - 1 = 0 <;> simp [hz, h1]
      · by_cases hz : s.byte_count - 1 = 0 <;>
          simp [hz, h2, le_trans h1 h2]
    | allocPagesOp n a =>
      simp only [step, Option.map_eq_some'] at hstep
      obtain ⟨⟨r, s''⟩, hpall, hsnd⟩ := hstep
      have hss : s'' = s' := hsnd
      subst hss
      obtain ⟨cand, hps, hle, had, hcase⟩ := alloc_pages_eq_cases hpall
      rcases hcase with ⟨hlt, hre, rfl⟩ | ⟨hbge, hcnt, hre, rfl⟩
      · exact ⟨h1, h2, h3⟩
      · have hcle : cand ≤ s.page_next := le_trans (align_down_le had) (Nat.sub_le _ _)
        exact ⟨h1, hbge, le_trans hcle h3⟩
    | deallocPagesOp =>
      simp only [step] at hstep
      obtain ⟨hc, rfl⟩ := dealloc_pages_eq_some hstep
      refine ⟨h1, ?_, ?_⟩
      · by_cases hz : s.page_count - 1 = 0 <;>
          simp [hz, h2, le_trans h2 h3]
      · by_cases hz : s.page_count - 1 = 0 <;> simp [hz, h3]

/-- Witness for C1 at the concrete state reached by `init(0, 100)`. -/
theorem claim_C1_invariant_witness :
    (⟨0, 100, 0, 0, 100, 0⟩ : EarlyAllocator).start ≤
        (⟨0, 100, 0, 0, 100, 0⟩ : EarlyAllocator).byte_next ∧
      (⟨0, 100, 0, 0, 100, 0⟩ : EarlyAllocator).byte_next ≤
        (⟨0, 100, 0, 0, 100, 0⟩ : EarlyAllocator).page_next ∧
      (⟨0, 100, 0, 0, 100, 0⟩ : EarlyAllocator).page_next ≤
        (⟨0, 100, 0, 0, 100, 0⟩ : EarlyAllocator).end_ :=
  claim_C1_invariant
    (Reachable.init 0 100 _ rfl : Reachable 4096 ⟨0, 100, 0, 0, 100, 0⟩)

/-! ## Claims C2 and C5: `add_memory` aborts instead of failing gracefully -/

/-- Claim **C2** (code bug): the claim says every operation returns normally and
never aborts the process — in particular `add_memory`.  But the source's
`add_memory` body is `todo!()`, which panics unconditionally in every
build: the call aborts (modelled as `none`) instead of returning a
failure result. -/
theorem claim_C2_add_memory_aborts :
    EarlyAllocator.add_memory ⟨0, 100, 0, 0, 100, 0⟩ 4096 4096 = none := rfl

/-- Claim **C5** (code bug): the claim says `add_memory` returns an explicit
unsupported-operation failure result and leaves the state unchanged.  The
source's `add_memory` is `todo!()`: it panics (modelled as `none`) and
returns no result at all. -/
theorem claim_C5_add_memory_unsupported :
    EarlyAllocator.add_memory ⟨4096, 8192, 4096, 0, 8192, 0⟩ 8192 4096 = none := rfl

/-! ## Claim C7: the null-candidate quirk of `alloc` -/

/-- Claim **C7**: There is a reachable state (here: right after `init(0, 100)`)
and a request (1 byte, align 1) for which the free gap is large enough
(candidate end `1 ≤ page_next = 100`) and the aligned candidate start is
the null address 0, where `alloc` returns `NoMemory` — yet the returned
state shows `byte_count` already incremented (`0 → 1`) and `byte_next`
already advanced (`0 → 1`): the failing call mutates the allocator. -/
theorem claim_C7_null_candidate_mutates :
    Reachable 4096 ⟨0, 100, 0, 0, 100, 0⟩ ∧
    align_up 0 1 = some 0 ∧
    (0 : ℕ) + 1 ≤ 100 ∧
    EarlyAllocator.alloc ⟨0, 100, 0, 0, 100, 0⟩ 1 1 =
      some (.error .NoMemory, ⟨0, 100, 1, 1, 100, 0⟩) :=
  ⟨Reachable.init 0 100 _ rfl, rfl, by norm_num, rfl⟩

/-! ## Claim C3: functional behavior of `alloc` -/

/-- Claim **C3** (counterexample): the claim says `alloc` fails exactly when the
candidate end exceeds `page_next` and otherwise returns the candidate
start.  After `init(0, 100)` the candidate start is `roundUp 0 1 = 0` and
the candidate end is `1 ≤ page_next = 100`, yet `alloc` returns
`NoMemory` (the `NonNull::new` null check) instead of succeeding — and
even mutates the state while failing. -/
theorem claim_C3_counterexample :
    roundUp 0 1 + 1 ≤ 100 ∧
    EarlyAllocator.alloc ⟨0, 100, 0, 0, 100, 0⟩ 1 1 =
      some (.error .NoMemory, ⟨0, 100, 1, 1, 100, 0⟩) ∧
    EarlyAllocator.alloc ⟨0, 100, 0, 0, 100, 0⟩ 1 1 ≠
      some (.ok (roundUp 0 1), ⟨0, 100, 1, 1, 100, 0⟩) := by
  refine ⟨by norm_num [roundUp], rfl, ?_⟩
  intro hc
  have hne := (show EarlyAllocator.alloc ⟨0, 100, 0, 0, 100, 0⟩ 1 1 =
    some (.error .NoMemory, ⟨0, 100, 1, 1, 100, 0⟩) from rfl).symm.trans hc
  simp [roundUp] at hne

/-- Claim **C3** (amended): for a power-of-two align `2^k`, and absent `usize`
overflow (which would panic), `alloc` computes
`cand = roundUp byte_next (2^k)` and candidate end `cand + size`; it
fails with `NoMemory` leaving the state unchanged when the candidate end
exceeds `page_next`; otherwise it increments `byte_count`, sets
`byte_next = cand + size`, and returns `cand` — **except** that when
`cand = 0` it returns `NoMemory` while still mutating the state. -/
theorem claim_C3_alloc_behavior {s : EarlyAllocator} {size k : ℕ}
    (h1 : s.byte_next + 2 ^ k < USIZE)
    (h2 : roundUp s.byte_next (2 ^ k) + size < USIZE)
    (h3 : s.byte_count + 1 < USIZE) :
    (s.page_next < roundUp s.byte_next (2 ^ k) + size →
      s.alloc size (2 ^ k) = some (.error .NoMemory, s)) ∧
    (roundUp s.byte_next (2 ^ k) + size ≤ s.page_next →
      roundUp s.byte_next (2 ^ k) = 0 →
      s.alloc size (2 ^ k) = some (.error .NoMemory,
        { s with
          byte_count := s.byte_count + 1,
          byte_next := roundUp s.byte_next (2 ^ k) + size })) ∧
    (roundUp s.byte_next (2 ^ k) + size ≤ s.page_next →
      roundUp s.byte_next (2 ^ k) ≠ 0 →
      s.alloc size (2 ^ k) = some (.ok (roundUp s.byte_next (2 ^ k)),
        { s with
          byte_count := s.byte_count + 1,
          byte_next := roundUp s.byte_next (2 ^ k) + size })) := by
  unfold EarlyAllocator.alloc
  rw [align_up_eq h1, Option.some_bind]
  refine ⟨fun hgt => ?_, fun hle hz => ?_, fun hle hz => ?_⟩
  · rw [if_neg (not_le.mpr h2), if_pos hgt]
  · rw [if_neg (not_le.mpr h2), if_neg (not_lt.mpr hle),
      if_neg (not_le.mpr h3), if_pos hz]
  · rw [if_neg (not_le.mpr h2), if_neg (not_lt.mpr hle),
      if_neg (not_le.mpr h3), if_neg hz]

/-- Witness for the amended C3 at a concrete state and layout. -/
theorem claim_C3_alloc_behavior_witness :
    ((⟨4096, 4196, 4096, 0, 4196, 0⟩ : EarlyAllocator).page_next <
        roundUp 4096 (2 ^ 0) + 10 →
      EarlyAllocator.alloc ⟨4096, 4196, 4096, 0, 4196, 0⟩ 10 (2 ^ 0) =
        some (.error .NoMemory, ⟨4096, 4196, 4096, 0, 4196, 0⟩)) ∧
    (roundUp 4096 (2 ^ 0) + 10 ≤
        (⟨4096, 4196, 4096, 0, 4196, 0⟩ : EarlyAllocator).page_next →
      roundUp 4096 (2 ^ 0) = 0 →
      EarlyAllocator.alloc ⟨4096, 4196, 4096, 0, 4196, 0⟩ 10 (2 ^ 0) =
        some (.error .NoMemory,
          { (⟨4096, 4196, 4096, 0, 4196, 0⟩ : EarlyAllocator) with
            byte_count := 0 + 1,
            byte_next := roundUp 4096 (2 ^ 0) + 10 })) ∧
    (roundUp 4096 (2 ^ 0) + 10 ≤
        (⟨4096, 4196, 4096, 0, 4196, 0⟩ : EarlyAllocator).page_next →
      roundUp 4096 (2 ^ 0) ≠ 0 →
      EarlyAllocator.alloc ⟨4096, 4196, 4096, 0, 4196, 0⟩ 10 (2 ^ 0) =
        some (.ok (roundUp 4096 (2 ^ 0)),
          { (⟨4096, 4196, 4096, 0, 4196, 0⟩ : EarlyAllocator) with
            byte_count := 0 + 1,
            byte_next := roundUp 4096 (2 ^ 0) + 10 })) :=
  claim_C3_alloc_behavior (by decide) (by decide) (by decide)

/-! ## Claim C6: a too-large byte request fails without mutation -/

/-- Claim **C6**: whenever the aligned candidate end exceeds `page_next` (the
free gap is too small for the request), `alloc` returns `NoMemory` and
the state — both cursors and both counts — is exactly unchanged.  The
overflow-freedom hypotheses make the candidate computation well defined
(in their absence the call panics rather than computing a candidate). -/
theorem claim_C6_exhaustion_unchanged {s : EarlyAllocator} {size k : ℕ}
    (h1 : s.byte_next + 2 ^ k < USIZE)
    (h2 : roundUp s.byte_next (2 ^ k) + size < USIZE)
    (hgap : s.page_next < roundUp s.byte_next (2 ^ k) + size) :
    s.alloc size (2 ^ k) = some (.error .NoMemory, s) := by
  unfold EarlyAllocator.alloc
  rw [align_up_eq h1, Option.some_bind, if_neg (not_le.mpr h2), if_pos hgap]

/-- Witness for C6: a 60-byte request against a 50-byte gap fails and
leaves the state untouched. -/
theorem claim_C6_exhaustion_unchanged_witness :
    EarlyAllocator.alloc ⟨0, 100, 50, 1, 100, 0⟩ 60 (2 ^ 0) =
      some (.error .NoMemory, ⟨0, 100, 50, 1, 100, 0⟩) :=
  claim_C6_exhaustion_unchanged (by decide) (by decide) (by decide)

/-! ## Claim C9: successful byte allocations are aligned -/

/-- Claim **C9**: every successful `alloc` with a power-of-two align `2^k`
returns an address that is a multiple of the align. -/
theorem claim_C9_alignment {s : EarlyAllocator} {size k addr : ℕ}
    {s' : EarlyAllocator} (h : s.alloc size (2 ^ k) = some (.ok addr, s')) :
    addr % 2 ^ k = 0 := by
  obtain ⟨cand, hau, hov, hcase⟩ := alloc_eq_cases h
  obtain ⟨-, hcand⟩ := align_up_some_ge hau
  rcases hcase with ⟨-, hre, -⟩ | ⟨-, -, -, ⟨-, hre⟩ | ⟨-, hre⟩⟩
  · exact absurd hre (by simp)
  · exact absurd hre (by simp)
  · obtain rfl : addr = cand := by simpa using hre
    rw [hcand]
    exact roundUp_mod _ _

/-- Witness for C9: a successful 4-aligned allocation returns an address
divisible by 4. -/
theorem claim_C9_alignment_witness : (4096 : ℕ) % 2 ^ 2 = 0 :=
  claim_C9_alignment
    (show EarlyAllocator.alloc ⟨4096, 4196, 4096, 0, 4196, 0⟩ 10 (2 ^ 2) =
      some (.ok 4096, ⟨4096, 4196, 4106, 1, 4196, 0⟩) from rfl)

/-! ## Claim C4: functional behavior of `alloc_pages` -/

/-- Claim **C4** (counterexample): the claim says that for *every* page count,
`alloc_pages` computes `page_next - num_pages * PAGE_SIZE` rounded down
and fails with an `OutOfMemory` result when that candidate is below
`byte_next`.  After `init(0, 100)` with `PAGE_SIZE = 4096`, one page is
requested: mathematically `100 - 4096 < 0`, so the claim predicts an
ordinary `NoMemory` failure — but the `usize` subtraction underflows: the
call panics (debug builds; modelled `none`) or wraps around to a huge
address (release builds), and no failure result is returned. -/
theorem claim_C4_counterexample :
    ((100 : ℤ) - 4096 * 1 < 0) ∧
    EarlyAllocator.alloc_pages 4096 ⟨0, 100, 0, 0, 100, 0⟩ 1 1 = none ∧
    EarlyAllocator.alloc_pages 4096 ⟨0, 100, 0, 0, 100, 0⟩ 1 1 ≠
      some (.error .NoMemory, ⟨0, 100, 0, 0, 100, 0⟩) := by
  refine ⟨by norm_num, rfl, ?_⟩
  intro hc
  exact Option.noConfusion
    ((show EarlyAllocator.alloc_pages 4096 ⟨0, 100, 0, 0, 100, 0⟩ 1 1 = none
      from rfl).symm.trans hc)

/-- Claim **C4** (amended): when the subtraction does not underflow
(`PAGE_SIZE * num_pages ≤ page_next`) and no counter overflow occurs,
`alloc_pages` with a power-of-two `align_pow2 = 2^j` computes
`cand = roundDown (page_next - PAGE_SIZE * num_pages) (2^j)`; it fails
with `NoMemory` (state unchanged) when `cand < byte_next`, and otherwise
increments `page_count`, sets `page_next = cand`, and returns `cand`. -/
theorem claim_C4_alloc_pages_behavior {PS : ℕ} {s : EarlyAllocator} {n j : ℕ}
    (hn : PS * n ≤ s.page_next)
    (hpn : s.page_next < USIZE)
    (hcnt : s.page_count + 1 < USIZE)
    (hj : j ≤ 64) :
    (roundDown (s.page_next - PS * n) (2 ^ j) < s.byte_next →
      EarlyAllocator.alloc_pages PS s n (2 ^ j) = some (.error .NoMemory, s)) ∧
    (s.byte_next ≤ roundDown (s.page_next - PS * n) (2 ^ j) →
      EarlyAllocator.alloc_pages PS s n (2 ^ j) =
        some (.ok (roundDown (s.page_next - PS * n) (2 ^ j)),
          { s with
            page_count := s.page_count + 1,
            page_next := roundDown (s.page_next - PS * n) (2 ^ j) })) := by
  have hps : PS * n < USIZE := lt_of_le_of_lt hn hpn
  have hx : s.page_next - PS * n < USIZE := lt_of_le_of_lt (Nat.sub_le _ _) hpn
  unfold EarlyAllocator.alloc_pages
  rw [if_neg (not_le.mpr hps), if_neg (not_lt.mpr hn), align_down_eq hj hx,
    Option.some_bind]
  refine ⟨fun hlt => ?_, fun hge => ?_⟩
  · rw [if_pos hlt]
  · rw [if_neg (not_lt.mpr hge), if_neg (not_le.mpr hcnt)]

/-- Witness for the amended C4: the spec's boundary-collision scenario —
a 3-page region with one byte allocated cannot serve 3 pages. -/
theorem claim_C4_alloc_pages_behavior_witness :
    (roundDown ((⟨4096, 16384, 4097, 1, 16384, 0⟩ : EarlyAllocator).page_next -
          4096 * 3) (2 ^ 0) <
        (⟨4096, 16384, 4097, 1, 16384, 0⟩ : EarlyAllocator).byte_next →
      EarlyAllocator.alloc_pages 4096 ⟨4096, 16384, 4097, 1, 16384, 0⟩ 3 (2 ^ 0) =
        some (.error .NoMemory, ⟨4096, 16384, 4097, 1, 16384, 0⟩)) ∧
    ((⟨4096, 16384, 4097, 1, 16384, 0⟩ : EarlyAllocator).byte_next ≤
        roundDown ((⟨4096, 16384, 4097, 1, 16384, 0⟩ : EarlyAllocator).page_next -
          4096 * 3) (2 ^ 0) →
      EarlyAllocator.alloc_pages 4096 ⟨4096, 16384, 4097, 1, 16384, 0⟩ 3 (2 ^ 0) =
        some (.ok (roundDown ((⟨4096, 16384, 4097, 1, 16384, 0⟩ :
            EarlyAllocator).page_next - 4096 * 3) (2 ^ 0)),
          { (⟨4096, 16384, 4097, 1, 16384, 0⟩ : EarlyAllocator) with
            page_count := (⟨4096, 16384, 4097, 1, 16384, 0⟩ :
              EarlyAllocator).page_count + 1,
            page_next := roundDown ((⟨4096, 16384, 4097, 1, 16384, 0⟩ :
              EarlyAllocator).page_next - 4096 * 3) (2 ^ 0) })) :=
  claim_C4_alloc_pages_behavior (by decide) (by decide) (by decide) (by decide)

/-! ## Claim C10: cursor monotonicity across single transitions -/

/-- Claim **C10**: across any single non-panicking call on a reachable state,
`byte_next` never decreases except when a `dealloc` resets it to `start`,
and `page_next` never increases except when a `dealloc_pages` resets it
to `end`. -/
theorem claim_C10_monotonic {PS : ℕ} {op : Op} {s s' : EarlyAllocator}
    (_hr : Reachable PS s) (h : step PS op s = some s') :
    (s.byte_next ≤ s'.byte_next ∨ (op = .deallocOp ∧ s'.byte_next = s.start)) ∧
    (s'.page_next ≤ s.page_next ∨
      (op = .deallocPagesOp ∧ s'.page_next = s.end_)) := by
  cases op with
  | allocOp size k =>
    simp only [step, Option.map_eq_some'] at h
    obtain ⟨⟨r, s''⟩, hall, hsnd⟩ := h
    have hss : s'' = s' := hsnd
    subst hss
    obtain ⟨cand, hau, hov, hcase⟩ := alloc_eq_cases hall
    obtain ⟨-, hcand⟩ := align_up_some_ge hau
    have hge : s.byte_next ≤ cand := hcand ▸ le_roundUp (Nat.two_pow_pos k)
    rcases hcase with ⟨-, -, rfl⟩ | ⟨-, -, rfl, -⟩
    · exact ⟨Or.inl le_rfl, Or.inl le_rfl⟩
    · exact ⟨Or.inl (le_trans hge (Nat.le_add_right _ _)), Or.inl le_rfl⟩
  | deallocOp =>
    simp only [step] at h
    obtain ⟨hc, rfl⟩ := dealloc_eq_some h
    refine ⟨?_, Or.inl le_rfl⟩
    by_cases hz : s.byte_count - 1 = 0
    · exact Or.inr ⟨rfl, by simp [hz]⟩
    · exact Or.inl (by simp [hz])
  | allocPagesOp n a =>
    simp only [step, Option.map_eq_some'] at h
    obtain ⟨⟨r, s''⟩, hpall, hsnd⟩ := h
    have hss : s'' = s' := hsnd
    subst hss
    obtain ⟨cand, -, -, had, hcase⟩ := alloc_pages_eq_cases hpall
    rcases hcase with ⟨-, -, rfl⟩ | ⟨-, -, -, rfl⟩
    · exact ⟨Or.inl le_rfl, Or.inl le_rfl⟩
    · exact ⟨Or.inl le_rfl,
        Or.inl (le_trans (align_down_le had) (Nat.sub_le _ _))⟩
  | deallocPagesOp =>
    simp only [step] at h
    obtain ⟨hc, rfl⟩ := dealloc_pages_eq_some h
    refine ⟨Or.inl le_rfl, ?_⟩
    by_cases hz : s.page_count - 1 = 0
    · exact Or.inr ⟨rfl, by simp [hz]⟩
    · exact Or.inl (by simp [hz])

/-- Witness for C10: the transition taken by a 10-byte allocation from
the `init(0, 100)` state. -/
theorem claim_C10_monotonic_witness :
    ((⟨0, 100, 0, 0, 100, 0⟩ : EarlyAllocator).byte_next ≤
        (⟨0, 100, 10, 1, 100, 0⟩ : EarlyAllocator).byte_next ∨
      (Op.allocOp 10 0 = Op.deallocOp ∧
        (⟨0, 100, 10, 1, 100, 0⟩ : EarlyAllocator).byte_next =
          (⟨0, 100, 0, 0, 100, 0⟩ : EarlyAllocator).start)) ∧
    ((⟨0, 100, 10, 1, 100, 0⟩ : EarlyAllocator).page_next ≤
        (⟨0, 100, 0, 0, 100, 0⟩ : EarlyAllocator).page_next ∨
      (Op.allocOp 10 0 = Op.deallocPagesOp ∧
        (⟨0, 100, 10, 1, 100, 0⟩ : EarlyAllocator).page_next =
          (⟨0, 100, 0, 0, 100, 0⟩ : EarlyAllocator).end_)) :=
  claim_C10_monotonic
    (Reachable.init 0 100 _ rfl : Reachable 4096 ⟨0, 100, 0, 0, 100, 0⟩) rfl

/-! ## Claim C8: bulk reclaim of the byte region -/

lemma roundUp_one (x : ℕ) : roundUp x 1 = x := by
  unfold roundUp
  simp

/-- A successful `alloc` leaves the span, the page side, and increments
`byte_count` by exactly one. -/
lemma alloc_ok_frame {s : EarlyAllocator} {size align addr : ℕ}
    {s' : EarlyAllocator} (h : s.alloc size align = some (.ok addr, s')) :
    s'.start = s.start ∧ s'.end_ = s.end_ ∧ s'.page_next = s.page_next ∧
    s'.page_count = s.page_count ∧ s'.byte_count = s.byte_count + 1 := by
  obtain ⟨cand, -, -, hcase⟩ := alloc_eq_cases h
  rcases hcase with ⟨-, hre, -⟩ | ⟨-, -, rfl, -⟩
  · exact absurd hre (by simp)
  · exact ⟨rfl, rfl, rfl, rfl, rfl⟩

/-- `n` successful byte allocations only advance the byte side: the span
and the page side are untouched and `byte_count` grows by `n`. -/
lemma allocsTo_frame {s : EarlyAllocator} {n : ℕ} {s' : EarlyAllocator}
    (h : AllocsTo s n s') :
    s'.start = s.start ∧ s'.end_ = s.end_ ∧ s'.page_next = s.page_next ∧
    s'.page_count = s.page_count ∧ s'.byte_count = s.byte_count + n ∧
    (n = 0 → s' = s) := by
  induction h with
  | refl => exact ⟨rfl, rfl, rfl, rfl, rfl, fun _ => rfl⟩
  | step size k addr h hs ih =>
    obtain ⟨f1, f2, f3, f4, f5⟩ := alloc_ok_frame hs
    obtain ⟨g1, g2, g3, g4, g5, -⟩ := ih
    exact ⟨f1.trans g1, f2.trans g2, f3.trans g3, f4.trans g4,
      by omega, fun hn => (Nat.succ_ne_zero _ hn).elim⟩

/-- Deallocating exactly `byte_count`-many times succeeds, zeroes the
count, and resets `byte_next` to `start` (unless no call was made). -/
lemma deallocN_full {n : ℕ} {s : EarlyAllocator} (h : s.byte_count = n) :
    ∃ s', deallocN n s = some s' ∧ s'.byte_count = 0 ∧ s'.start = s.start ∧
      s'.end_ = s.end_ ∧ s'.page_next = s.page_next ∧
      s'.page_count = s.page_count ∧
      s'.byte_next = (if n = 0 then s.byte_next else s.start) := by
  induction n generalizing s with
  | zero => exact ⟨s, rfl, h, rfl, rfl, rfl, rfl, by simp⟩
  | succ m ih =>
    have hd : s.dealloc = some { s with
        byte_count := m,
        byte_next := if m = 0 then s.start else s.byte_next } := by
      unfold EarlyAllocator.dealloc
      rw [if_neg (by omega : ¬ s.byte_count = 0), h]
      simp
    obtain ⟨s', hdn, hc, h1, h2, h3, h4, h5⟩ :=
      ih (s := { s with
        byte_count := m,
        byte_next := if m = 0 then s.start else s.byte_next }) rfl
    refine ⟨s', ?_, hc, h1, h2, h3, h4, ?_⟩
    · show deallocN (m + 1) s = some s'
      unfold deallocN
      rw [hd, Option.some_bind]
      exact hdn
    · by_cases hm : m = 0
      · simp only [hm, if_pos rfl] at h5
        simpa using h5
      · simp only [if_neg hm] at h5
        simpa [hm] using h5

/-- Claim **C8** (counterexample): take `init(0, 100)` and `n = 0` allocations
followed by `n = 0` deallocations: `byte_next = start` holds, and
`1 ≤ end - start`, yet the subsequent 1-byte allocation with align 1
does *not* succeed — the aligned candidate start is the null address and
`alloc` returns `NoMemory` (mutating the state as it fails). -/
theorem claim_C8_counterexample :
    EarlyAllocator.new.init 0 100 = some ⟨0, 100, 0, 0, 100, 0⟩ ∧
    (⟨0, 100, 0, 0, 100, 0⟩ : EarlyAllocator).byte_next =
      (⟨0, 100, 0, 0, 100, 0⟩ : EarlyAllocator).start ∧
    (1 : ℕ) ≤ 100 - 0 ∧
    EarlyAllocator.alloc ⟨0, 100, 0, 0, 100, 0⟩ 1 1 =
      some (.error .NoMemory, ⟨0, 100, 1, 1, 100, 0⟩) :=
  ⟨rfl, rfl, by norm_num, rfl⟩

/-- Claim **C8** (amended): for a region based at a *nonzero* `start` (so that
successful allocations return non-null addresses), after any `n`
successful byte allocations from the freshly initialized state followed
by `n` byte deallocations, `byte_next` equals `start` again, and a
subsequent byte allocation of any size `sz ≤ size = end - start` with
align 1 succeeds and returns `start`. -/
theorem claim_C8_bulk_reclaim {start size n sz : ℕ}
    {s0 s1 s2 : EarlyAllocator}
    (hinit : EarlyAllocator.new.init start size = some s0)
    (hstart : start ≠ 0)
    (hone : start + 1 < USIZE)
    (halloc : AllocsTo s0 n s1)
    (hdeall : deallocN n s1 = some s2)
    (hsz : sz ≤ size) :
    s2.byte_next = start ∧
    s2.alloc sz 1 = some (.ok start,
      { s2 with byte_count := 1, byte_next := start + sz }) := by
  obtain ⟨hov, rfl⟩ := init_eq_some hinit
  obtain ⟨f1, f2, f3, f4, f5, fz⟩ := allocsTo_frame halloc
  obtain ⟨s2', hdn, g0, g1, g2, g3, g4, g5⟩ :=
    deallocN_full (n := n) (s := s1) (by simp [f5])
  have hs2 : s2' = s2 := by
    rw [hdn] at hdeall
    exact Option.some_inj.mp hdeall
  rw [hs2] at g0 g1 g2 g3 g4 g5
  have hbn : s2.byte_next = start := by
    rcases Nat.eq_zero_or_pos n with rfl | hn
    · obtain rfl := fz rfl
      simpa using g5
    · have hn0 : ¬ n = 0 := by omega
      simp [g5, hn0, f1]
  refine ⟨hbn, ?_⟩
  have hau : align_up s2.byte_next 1 = some start := by
    rw [hbn]
    have h0 := align_up_eq (show start + 2 ^ 0 < USIZE by simpa using hone)
    simpa [roundUp_one] using h0
  have hpn : s2.page_next = start + size := by simp [g3, f3]
  have hbc0 : s2.byte_count = 0 := g0
  unfold EarlyAllocator.alloc
  rw [hau, Option.some_bind]
  rw [if_neg (not_le.mpr (lt_of_le_of_lt
    (by omega : start + sz ≤ start + size) hov))]
  rw [if_neg (show ¬ start + sz > s2.page_next by rw [hpn]; omega)]
  rw [if_neg (show ¬ USIZE ≤ s2.byte_count + 1 by rw [hbc0]; decide)]
  rw [if_neg hstart, hbc0]

/-- Witness for the amended C8: one allocation and one deallocation from
`init(4096, 100)`, then a 50-byte allocation succeeds at `start`. -/
theorem claim_C8_bulk_reclaim_witness :
    (⟨4096, 4196, 4096, 0, 4196, 0⟩ : EarlyAllocator).byte_next = 4096 ∧
    EarlyAllocator.alloc ⟨4096, 4196, 4096, 0, 4196, 0⟩ 50 1 =
      some (.ok 4096,
        { (⟨4096, 4196, 4096, 0, 4196, 0⟩ : EarlyAllocator) with
          byte_count := 1, byte_next := 4096 + 50 }) :=
  claim_C8_bulk_reclaim
    (show EarlyAllocator.new.init 4096 100 = some ⟨4096, 4196, 4096, 0, 4196, 0⟩
      from rfl)
    (by decide) (by decide)
    (AllocsTo.step 10 0 4096 (AllocsTo.refl ⟨4096, 4196, 4096, 0, 4196, 0⟩)
      (show EarlyAllocator.alloc ⟨4096, 4196, 4096, 0, 4196, 0⟩ 10 (2 ^ 0) =
        some (.ok 4096, ⟨4096, 4196, 4106, 1, 4196, 0⟩) from rfl))
    (show deallocN 1 ⟨4096, 4196, 4106, 1, 4196, 0⟩ =
      some ⟨4096, 4196, 4096, 0, 4196, 0⟩ from rfl)
    (by decide)

end BumpAllocator
